import Mathlib

/-!
Verification of the geojson-converter repository's conversion route
(`src/app/api/convert`, flat+nested variant).  We shallowly embed the
JavaScript semantics the route depends on (JS values including NaN and
undefined, truthiness, member access, strict equality, `JSON.parse`) and
the route's `POST` handler, then prove or refute the specification's
claims about it.
-/

/-- A JavaScript runtime value as reachable in the convert route.  JSON
numbers are modelled exactly as rationals; `vnan` is the JS `NaN`
sentinel and `vundefined` is `undefined` (the result of reading an absent
property). -/
inductive Value where
  | vnull : Value
  | vundefined : Value
  | vbool : Bool → Value
  | vnum : ℚ → Value
  | vnan : Value
  | vstr : String → Value
  | varr : List Value → Value
  | vobj : List (String × Value) → Value

namespace Value

/-- JS truthiness of a value (`if (v)`). -/
def truthy : Value → Bool
  | vnull => false
  | vundefined => false
  | vbool b => b
  | vnum q => q != 0
  | vnan => false
  | vstr s => s != ""
  | varr _ => true
  | vobj _ => true

/-- Association-list lookup where a later binding wins, matching the way
duplicate keys behave in a JS object built by `JSON.parse`. -/
def lookupLast (k : String) : List (String × Value) → Option Value
  | [] => none
  | (k₁, v) :: rest =>
    match lookupLast k rest with
    | some w => some w
    | none => if k₁ == k then some v else none

/-- JS member access `v.k`: `none` models a thrown `TypeError`
(reading a property of `null` or `undefined`); primitives are boxed and
yield `undefined` for named properties; objects yield the bound value or
`undefined`. -/
def getField : Value → String → Option Value
  | vnull, _ => none
  | vundefined, _ => none
  | vobj fs, k => some ((lookupLast k fs).getD vundefined)
  | _, _ => some vundefined

/-- JS `k in v`: `none` models the `TypeError` thrown for primitive
operands; arrays answer only for `length` among the names this program
queries. -/
def hasKeyIn : Value → String → Option Bool
  | vobj fs, k => some (fs.any (fun p => p.1 == k))
  | varr _, k => some (k == "length")
  | _, _ => none

/-- Constructor test for `undefined`, used for the JS comparisons
`point.lat !== undefined` in the route. -/
def isUndef : Value → Bool
  | vundefined => true
  | _ => false

/-- Constructor test for `Array.isArray`. -/
def isArray : Value → Bool
  | varr _ => true
  | _ => false

/-- Constructor test for `typeof v === "string"`. -/
def isString : Value → Bool
  | vstr _ => true
  | _ => false

/-- JS strict equality `===` restricted to the values that can occupy a
coordinate slot here.  `NaN` is equal to nothing (including itself);
primitives compare by value; arrays and objects compare by reference and
in this program the two compared slots always hold values freshly built
by distinct `JSON.parse` allocations, hence are never the same
reference. -/
def jsStrictEqB : Value → Value → Bool
  | vnan, _ => false
  | _, vnan => false
  | vnull, vnull => true
  | vundefined, vundefined => true
  | vbool a, vbool b => a == b
  | vnum a, vnum b => a == b
  | vstr a, vstr b => a == b
  | _, _ => false

/-- JS strict equality of a coordinate slot with itself (`x !== x`
negated): reference equality makes any value other than `NaN` equal to
itself. -/
def jsSelfEqB : Value → Bool
  | vnan => false
  | _ => true

/-- A coordinate component that is a primitive, non-`NaN` value (in
particular every genuine finite number).  On such values reference
subtleties and the `NaN` special case are absent, so `jsStrictEqB`
coincides with structural equality. -/
def primNonNaN : Value → Bool
  | vnull => true
  | vundefined => true
  | vbool _ => true
  | vnum _ => true
  | vstr _ => true
  | _ => false

end Value

/-! ### A model of `JSON.parse`
The route calls `JSON.parse` on textual polygon payloads; a parse
failure is a thrown exception (modelled as `none`).  The parser below
follows the ECMA-404 JSON grammar: literals, strings with escapes,
numbers with optional fraction and exponent, arrays and objects, with
only space, tab, carriage return and line feed as whitespace. -/

def quoteChar : Char := Char.ofNat 34

def backslashChar : Char := Char.ofNat 92

def braceOpenChar : Char := Char.ofNat 123

def braceCloseChar : Char := Char.ofNat 125

def isJsonWs (c : Char) : Bool :=
  c == ' ' || c == Char.ofNat 9 || c == Char.ofNat 10 || c == Char.ofNat 13

def skipWs : List Char → List Char
  | [] => []
  | c :: cs => if isJsonWs c then skipWs cs else c :: cs

def hexVal (c : Char) : Option Nat :=
  if c.isDigit then some (c.toNat - 48)
  else if 'a' ≤ c && c ≤ 'f' then some (c.toNat - 87)
  else if 'A' ≤ c && c ≤ 'F' then some (c.toNat - 55)
  else none

def escChar (c : Char) : Option Char :=
  if c == quoteChar then some quoteChar
  else if c == backslashChar then some backslashChar
  else if c == '/' then some '/'
  else if c == 'b' then some (Char.ofNat 8)
  else if c == 'f' then some (Char.ofNat 12)
  else if c == 'n' then some (Char.ofNat 10)
  else if c == 'r' then some (Char.ofNat 13)
  else if c == 't' then some (Char.ofNat 9)
  else none

/-- Parse the body of a JSON string (the opening quote already
consumed), returning the decoded characters and the input remaining
after the closing quote. -/
def parseStrChars : Nat → List Char → Option (List Char × List Char)
  | 0, _ => none
  | _, [] => none
  | fuel+1, c :: cs =>
    if c == quoteChar then some ([], cs)
    else if c == backslashChar then
      match cs with
      | [] => none
      | e :: cs₁ =>
        if e == 'u' then
          match cs₁ with
          | h₁ :: h₂ :: h₃ :: h₄ :: cs₂ =>
            match hexVal h₁, hexVal h₂, hexVal h₃, hexVal h₄ with
            | some a, some b, some c₃, some d =>
              match parseStrChars fuel cs₂ with
              | some (out, rest) =>
                some (Char.ofNat (a * 4096 + b * 256 + c₃ * 16 + d) :: out, rest)
              | none => none
            | _, _, _, _ => none
          | _ => none
        else
          match escChar e with
          | some ch =>
            match parseStrChars fuel cs₁ with
            | some (out, rest) => some (ch :: out, rest)
            | none => none
          | none => none
    else if c.toNat < 32 then none
    else
      match parseStrChars fuel cs with
      | some (out, rest) => some (c :: out, rest)
      | none => none

def takeDigits : List Char → List Char × List Char
  | [] => ([], [])
  | c :: cs =>
    if c.isDigit then
      let (ds, rest) := takeDigits cs
      (c :: ds, rest)
    else ([], c :: cs)

def digitsVal (ds : List Char) : Nat :=
  ds.foldl (fun acc c => acc * 10 + (c.toNat - 48)) 0

/-- Parse an exponent body (the `e`/`E` already consumed). -/
def parseExpPart (input : List Char) : Option (Int × List Char) :=
  let signSplit : Bool × List Char :=
    match input with
    | c :: cs =>
      if c == '+' then (false, cs)
      else if c == '-' then (true, cs)
      else (false, input)
    | [] => (false, [])
  let (ds, rest) := takeDigits signSplit.2
  if ds.isEmpty then none
  else some (if signSplit.1 then -(digitsVal ds : Int) else (digitsVal ds : Int), rest)

def applyExpOpt (q : ℚ) : List Char → Option (ℚ × List Char)
  | c :: cs =>
    if c == 'e' || c == 'E' then
      match parseExpPart cs with
      | some (e, rest) => some (q * (10 : ℚ) ^ e, rest)
      | none => none
    else some (q, c :: cs)
  | [] => some (q, [])

def parseNumber (input : List Char) : Option (ℚ × List Char) :=
  let signSplit : Bool × List Char :=
    match input with
    | c :: cs => if c == '-' then (true, cs) else (false, input)
    | [] => (false, [])
  let (ints, s₂) := takeDigits signSplit.2
  if ints.isEmpty then none
  else if decide (1 < ints.length) && (ints.head? == some '0') then none
  else
    let magSplit : Option (ℚ × List Char) :=
      match s₂ with
      | c :: cs =>
        if c == '.' then
          let (fds, s₃) := takeDigits cs
          if fds.isEmpty then none
          else some ((digitsVal ints : ℚ) + (digitsVal fds : ℚ) / (10 : ℚ) ^ fds.length, s₃)
        else some ((digitsVal ints : ℚ), s₂)
      | [] => some ((digitsVal ints : ℚ), [])
    match magSplit with
    | none => none
    | some (mag, s₄) =>
      match applyExpOpt mag s₄ with
      | none => none
      | some (q, s₅) => some (if signSplit.1 then -q else q, s₅)

mutual

def parseValue : Nat → List Char → Option (Value × List Char)
  | 0, _ => none
  | fuel+1, input =>
    match skipWs input with
    | [] => none
    | c :: cs =>
      if c == 'n' then
        match cs with
        | 'u' :: 'l' :: 'l' :: rest => some (.vnull, rest)
        | _ => none
      else if c == 't' then
        match cs with
        | 'r' :: 'u' :: 'e' :: rest => some (.vbool true, rest)
        | _ => none
      else if c == 'f' then
        match cs with
        | 'a' :: 'l' :: 's' :: 'e' :: rest => some (.vbool false, rest)
        | _ => none
      else if c == quoteChar then
        match parseStrChars (cs.length + 1) cs with
        | some (out, rest) => some (.vstr (String.mk out), rest)
        | none => none
      else if c == '[' then
        match skipWs cs with
        | [] => none
        | d :: ds =>
          if d == ']' then some (.varr [], ds)
          else
            match parseElems fuel (d :: ds) with
            | some (elems, rest) => some (.varr elems, rest)
            | none => none
      else if c == braceOpenChar then
        match skipWs cs with
        | [] => none
        | d :: ds =>
          if d == braceCloseChar then some (.vobj [], ds)
          else
            match parseMembers fuel (d :: ds) with
            | some (ms, rest) => some (.vobj ms, rest)
            | none => none
      else if c == '-' || c.isDigit then
        match parseNumber (c :: cs) with
        | some (q, rest) => some (.vnum q, rest)
        | none => none
      else none

def parseElems : Nat → List Char → Option (List Value × List Char)
  | 0, _ => none
  | fuel+1, input =>
    match parseValue fuel input with
    | none => none
    | some (v, rest) =>
      match skipWs rest with
      | [] => none
      | d :: ds =>
        if d == ',' then
          match parseElems fuel ds with
          | some (vs, rest₂) => some (v :: vs, rest₂)
          | none => none
        else if d == ']' then some ([v], ds)
        else none

def parseMembers : Nat → List Char → Option (List (String × Value) × List Char)
  | 0, _ => none
  | fuel+1, input =>
    match skipWs input with
    | [] => none
    | c :: cs =>
      if c == quoteChar then
        match parseStrChars (cs.length + 1) cs with
        | none => none
        | some (kout, rest) =>
          match skipWs rest with
          | [] => none
          | d :: ds =>
            if d == ':' then
              match parseValue fuel ds with
              | none => none
              | some (v, rest₂) =>
                match skipWs rest₂ with
                | [] => none
                | e :: es =>
                  if e == ',' then
                    match parseMembers fuel es with
                    | some (ms, rest₃) => some ((String.mk kout, v) :: ms, rest₃)
                    | none => none
                  else if e == braceCloseChar then
                    some ([(String.mk kout, v)], es)
                  else none
            else none
      else none

end

/-- Model of `JSON.parse`: `none` is a thrown `SyntaxError`. -/
def jsonParse (s : String) : Option Value :=
  match parseValue (2 * s.length + 8) s.data with
  | some (v, rest) => if (skipWs rest).isEmpty then some v else none
  | none => none

/-! ### The GeoJSON output model of the route -/

/-- Geometry as built by the route: a single-ring polygon or a point.
Coordinate slots hold the raw JS values the route places there
(`[lng, lat]`, stored here as a pair with `.1 = lng`, `.2 = lat`). -/
inductive Geometry where
  | polygonGeom : List (Value × Value) → Geometry
  | pointGeom : Value → Value → Geometry

/-- A feature object `{type: "Feature", properties: {name}, geometry}`. -/
structure GeoJSONFeature where
  name : Value
  geom : Geometry

/-- The FeatureCollection the route returns on success. -/
structure GeoJSONResponse where
  features : List GeoJSONFeature

/-- Outcome of one `POST` invocation: a 400 with an error message, the
generic 500 from the outer catch, or the 200 with the GeoJSON body. -/
inductive ConvertResult where
  | clientError : String → ConvertResult
  | serverError : ConvertResult
  | success : GeoJSONResponse → ConvertResult

/-! ### Coordinate resolution and ring closure -/

/-- Property read during coordinate resolution; callers guarantee the
receiver is not null/undefined, so the access cannot throw. -/
def fieldD (v : Value) (k : String) : Value := (v.getField k).getD .vundefined

/-- The route's per-point field-pair cascade: try `(lat,long)`,
`(lat,lng)`, `(latitude,longitude)`, `(lat,lon)` in that order, the
first pair with both properties not `undefined` winning, and return the
pair as `[lng, lat]`.  `none` models the thrown
`Invalid coordinate format` error (or the TypeError from reading a
property of a null/undefined point), which aborts the whole feature. -/
def resolvePoint (point : Value) : Option (Value × Value) :=
  match point with
  | .vnull => none
  | .vundefined => none
  | _ =>
    let lat := fieldD point "lat"
    let long := fieldD point "long"
    let lng := fieldD point "lng"
    let latitude := fieldD point "latitude"
    let longitude := fieldD point "longitude"
    let lon := fieldD point "lon"
    if !lat.isUndef && !long.isUndef then some (long, lat)
    else if !lat.isUndef && !lng.isUndef then some (lng, lat)
    else if !latitude.isUndef && !longitude.isUndef then some (longitude, latitude)
    else if !lat.isUndef && !lon.isUndef then some (lon, lat)
    else none

/-- `first[0] !== last[0] || first[1] !== last[1]` for two distinct
coordinate array objects. -/
def pairStrictNeqB (a b : Value × Value) : Bool :=
  !(Value.jsStrictEqB a.1 b.1) || !(Value.jsStrictEqB a.2 b.2)

/-- The same comparison when `first` and `last` are the *same* array
object (singleton list): each slot is compared with itself, which can
only differ for `NaN`. -/
def pairSelfNeqB (p : Value × Value) : Bool :=
  !(p.1.jsSelfEqB) || !(p.2.jsSelfEqB)

/-- The route's ring-closure step: on a non-empty list, compare the
first and last entries with `!==` per component and append a copy of the
first entry when they differ.  A singleton list compares the first entry
with itself (same reference). -/
def closeRing (coords : List (Value × Value)) : List (Value × Value) :=
  match coords with
  | [] => []
  | [p] => if pairSelfNeqB p then [p, p] else [p]
  | first :: rest =>
    if pairStrictNeqB first (List.getLastD rest first) then
      (first :: rest) ++ [first]
    else first :: rest

/-! ### Per-station processing, validation, detection, markers -/

/-- Convert one already-validated station, mirroring the per-station
try/catch body: `none` means no feature is pushed (polygon neither
string nor array, JSON decode failure, parse result not a non-empty
array, or some point with no recognized field pair). -/
def processStation (station : Value) : Option GeoJSONFeature :=
  match station.getField "polygon" with
  | none => none
  | some polyv =>
    let polygonData? : Option Value :=
      match polyv with
      | .vstr s => jsonParse s
      | .varr es => some (.varr es)
      | _ => none
    match polygonData? with
    | some (.varr pts) =>
      if pts.isEmpty then none
      else
        match pts.mapM resolvePoint with
        | none => none
        | some coords =>
          match station.getField "name" with
          | none => none
          | some nm => some ⟨nm, .polygonGeom (closeRing coords)⟩
    | _ => none

/-- Outcome of a validation pass. -/
inductive Check where
  | ok : Check
  | clientErr : String → Check
  | thrown : Check

/-- A single-quote character, used in the route's error messages. -/
def quoteMark : String := String.singleton (Char.ofNat 39)

def missingFieldMsg (path fld : String) : String :=
  "Station at " ++ path ++ ": Missing required " ++ quoteMark ++ fld ++ quoteMark ++ " field"

def flatPath (i : Nat) : String := "index " ++ toString i

def nestedPath (ai si : Nat) : String :=
  "area[" ++ toString ai ++ "].area_list[" ++ toString si ++ "]"

/-- The flat branch's up-front validation loop, from index `i`. -/
def validateFlatFrom : List Value → Nat → Check
  | [], _ => .ok
  | st :: rest, i =>
    match st.getField "name" with
    | none => .thrown
    | some nm =>
      if !nm.truthy then .clientErr (missingFieldMsg (flatPath i) "name")
      else
        match st.getField "polygon" with
        | none => .thrown
        | some pg =>
          if !pg.truthy then .clientErr (missingFieldMsg (flatPath i) "polygon")
          else validateFlatFrom rest (i + 1)

/-- The nested branch's inner validation loop over one group's
stations. -/
def validateStationsFrom (ai : Nat) : List Value → Nat → Check
  | [], _ => .ok
  | st :: rest, si =>
    match st.getField "name" with
    | none => .thrown
    | some nm =>
      if !nm.truthy then .clientErr (missingFieldMsg (nestedPath ai si) "name")
      else
        match st.getField "polygon" with
        | none => .thrown
        | some pg =>
          if !pg.truthy then .clientErr (missingFieldMsg (nestedPath ai si) "polygon")
          else validateStationsFrom ai rest (si + 1)

/-- The nested branch's outer validation loop: a group whose
`area_list` is missing, falsy or not an array is skipped. -/
def validateNestedFrom : List Value → Nat → Check
  | [], _ => .ok
  | area :: rest, ai =>
    match area.getField "area_list" with
    | none => .thrown
    | some (.varr stations) =>
      match validateStationsFrom ai stations 0 with
      | .ok => validateNestedFrom rest (ai + 1)
      | r => r
    | some _ => validateNestedFrom rest (ai + 1)

/-- The flat branch's processing loop: push one feature per surviving
station into the accumulator, in input order. -/
def processFlat (stations : List Value) : List GeoJSONFeature :=
  stations.foldl (fun acc st => acc ++ (processStation st).toList) []

/-- Nested processing of one group into the running accumulator; a
group without an array `area_list` is skipped.  (After a successful
validation pass the `area_list` read cannot throw.) -/
def processAreaInto (acc : List GeoJSONFeature) (area : Value) : List GeoJSONFeature :=
  match area.getField "area_list" with
  | some (.varr stations) =>
    stations.foldl (fun a st => a ++ (processStation st).toList) acc
  | _ => acc

def processNested (areas : List Value) : List GeoJSONFeature :=
  areas.foldl processAreaInto []

/-- `data.some(item => 'area_list' in item)` with JS short-circuiting;
`none` models the TypeError thrown when `in` is applied to a primitive
element before any element owning the key is reached. -/
def someHasAreaList : List Value → Option Bool
  | [] => some false
  | v :: rest =>
    match v.hasKeyIn "area_list" with
    | none => none
    | some true => some true
    | some false => someHasAreaList rest

/-- `isSimpleArray` from the route: the flat branch handles the batch
iff the top-level array is non-empty and no element owns an `area_list`
key; `data.length > 0 &&` short-circuits, so an empty array never
evaluates the `some` call. -/
def isSimpleArray (items : List Value) : Option Bool :=
  if items.length = 0 then some false
  else
    match someHasAreaList items with
    | none => none
    | some has => some (!has)

/-- The point feature for one marker; `none` models the TypeError from
reading a property of a null/undefined marker, which escapes to the
outer catch. -/
def markerFeature (m : Value) : Option GeoJSONFeature :=
  match m.getField "name", m.getField "lng", m.getField "lat" with
  | some nm, some lng, some lat => some ⟨nm, .pointGeom lng lat⟩
  | _, _, _ => none

/-- The request body after destructuring with its defaults
(`includeMarkers = false`, `markers = []`). -/
structure RequestModel where
  data : Value
  includeMarkers : Value
  markers : List Value

def notArrayMsg : String := "Invalid input: Expected an array of station data or area data"

/-- The marker stage and final assembly: when `includeMarkers` is truthy
and the marker list non-empty, append one point feature per marker, in
order, with no validation of any kind. -/
def addMarkers (feats : List GeoJSONFeature) (req : RequestModel) : ConvertResult :=
  if req.includeMarkers.truthy && decide (0 < req.markers.length) then
    match req.markers.mapM markerFeature with
    | none => .serverError
    | some mfs => .success ⟨feats ++ mfs⟩
  else .success ⟨feats⟩

/-- The whole `POST` handler on a destructured body. -/
def convert (req : RequestModel) : ConvertResult :=
  match req.data with
  | .varr items =>
    match isSimpleArray items with
    | none => .serverError
    | some true =>
      match validateFlatFrom items 0 with
      | .thrown => .serverError
      | .clientErr msg => .clientError msg
      | .ok => addMarkers (processFlat items) req
    | some false =>
      match validateNestedFrom items 0 with
      | .thrown => .serverError
      | .clientErr msg => .clientError msg
      | .ok => addMarkers (processNested items) req
  | _ => .clientError notArrayMsg

/-! ### The JSON body of a success response -/

def encodeCoordPair (c : Value × Value) : Value := .varr [c.1, c.2]

def encodeGeometry : Geometry → Value
  | .polygonGeom ring =>
    .vobj [("type", .vstr "Polygon"),
           ("coordinates", .varr [.varr (ring.map encodeCoordPair)])]
  | .pointGeom lng lat =>
    .vobj [("type", .vstr "Point"), ("coordinates", .varr [lng, lat])]

def encodeFeature (f : GeoJSONFeature) : Value :=
  .vobj [("type", .vstr "Feature"),
         ("properties", .vobj [("name", f.name)]),
         ("geometry", encodeGeometry f.geom)]

/-- The JSON body produced by `NextResponse.json(geojson)` on success:
exactly the bare FeatureCollection object, with no other key. -/
def encodeResponse (r : GeoJSONResponse) : Value :=
  .vobj [("type", .vstr "FeatureCollection"),
         ("features", .varr (r.features.map encodeFeature))]

/-! ### Derived descriptions of the pipeline, used to state the claims -/

/-- A value on which property reads do not throw (not `null`, not
`undefined`). -/
def accessibleB : Value → Bool
  | .vnull => false
  | .vundefined => false
  | _ => true

/-- The features the flat branch pushes, in input order. -/
def flatFeatures : List Value → List GeoJSONFeature
  | [] => []
  | st :: rest => (processStation st).toList ++ flatFeatures rest

/-- The features one nested group contributes, in station order. -/
def areaFeatures (area : Value) : List GeoJSONFeature :=
  match area.getField "area_list" with
  | some (.varr sts) => flatFeatures sts
  | _ => []

/-- The features the nested branch pushes: group order, then station
order within each group. -/
def nestedFeatures : List Value → List GeoJSONFeature
  | [] => []
  | a :: rest => areaFeatures a ++ nestedFeatures rest

/-- The point feature a marker turns into: `[lng, lat]`, name taken
verbatim. -/
def pointOf (m : Value) : GeoJSONFeature :=
  ⟨fieldD m "name", .pointGeom (fieldD m "lng") (fieldD m "lat")⟩

/-- Which mandatory field (if any) the structural validation rejects a
station for, `name` checked first. -/
def stationIssue (st : Value) : Option String :=
  if !(fieldD st "name").truthy then some "name"
  else if !(fieldD st "polygon").truthy then some "polygon"
  else none

/-- Position and field of the first structural violation in a flat list
of stations. -/
def flatFirstIssue : List Value → Option (Nat × String)
  | [] => none
  | st :: rest =>
    match stationIssue st with
    | some f => some (0, f)
    | none => (flatFirstIssue rest).map (fun jf => (jf.1 + 1, jf.2))

/-- Position of the first structural violation among the stations
reachable in nested shape (groups without an array `area_list` are
skipped). -/
def nestedFirstIssue : List Value → Option (Nat × Nat × String)
  | [] => none
  | area :: rest =>
    match area.getField "area_list" with
    | some (.varr sts) =>
      match flatFirstIssue sts with
      | some (j, f) => some (0, j, f)
      | none => (nestedFirstIssue rest).map (fun t => (t.1 + 1, t.2))
    | _ => (nestedFirstIssue rest).map (fun t => (t.1 + 1, t.2))

/-- A nested element whose own stations can all be read without
throwing. -/
def areaStationsOk (area : Value) : Bool :=
  accessibleB area &&
    (match area.getField "area_list" with
     | some (.varr sts) => sts.all accessibleB
     | _ => true)

/-- The extraction-rule table of the specification: candidate
`(longitude-key, latitude-key)` pairs in precedence order. -/
def pairNames : List (String × String) :=
  [("long", "lat"), ("lng", "lat"), ("longitude", "latitude"), ("lon", "lat")]

/-- Modelled from the spec: coordinate extraction as an ordered list of
field-name rules, the first rule with both fields present winning. -/
def firstPairMatch (p : Value) : List (String × String) → Option (Value × Value)
  | [] => none
  | (lk, bk) :: rest =>
    if !(fieldD p bk).isUndef && !(fieldD p lk).isUndef then
      some (fieldD p lk, fieldD p bk)
    else firstPairMatch p rest

/-- Modelled from the spec: the detection rule as the specification
words it — `Nested` iff the array is non-empty and at least one element
owns an `area_list` key. -/
def specNestedRule (items : List Value) : Prop :=
  items ≠ [] ∧ ∃ v ∈ items, v.hasKeyIn "area_list" = some true

/-- View of a value as an array payload, used to reason about the
`Array.isArray` dispatch in the nested walks. -/
def asVarr : Value → Option (List Value)
  | .varr xs => some xs
  | _ => none

/-! ### Concrete sample inputs used to instantiate the claims -/

/-- A raw point `{lat, long}` with numeric fields. -/
def mkLatLong (la lo : ℚ) : Value :=
  .vobj [("lat", .vnum la), ("long", .vnum lo)]

/-- The flat feature of the end-to-end example:
`{name: "Square", polygon: [{lat:0,long:0},{lat:0,long:1},{lat:1,long:1},{lat:1,long:0}]}`. -/
def sampleSquare : Value :=
  .vobj [("name", .vstr "Square"),
         ("polygon", .varr [mkLatLong 0 0, mkLatLong 0 1, mkLatLong 1 1, mkLatLong 1 0])]

/-- A well-formed one-point station with the given name. -/
def sampleStation (n : String) : Value :=
  .vobj [("name", .vstr n), ("polygon", .varr [mkLatLong 0 0])]

/-- A station lacking the mandatory `name` field. -/
def sampleNoName : Value := .vobj [("polygon", .varr [mkLatLong 0 0])]

/-- The precedence test point `{lat:-6.24, long:106.86, lng:999}`. -/
def samplePrecPoint : Value :=
  .vobj [("lat", .vnum (-6.24)), ("long", .vnum 106.86), ("lng", .vnum 999)]

/-- A station whose single point has the non-numeric latitude `"abc"`. -/
def sampleAbcStation : Value :=
  .vobj [("name", .vstr "A"),
         ("polygon", .varr [.vobj [("lat", .vstr "abc"), ("long", .vnum 106.8)]])]

/-- A station whose textual polygon does not decode as JSON. -/
def sampleBadJsonStation : Value :=
  .vobj [("name", .vstr "X"), ("polygon", .vstr "not json")]

/-- The out-of-range marker `{lat:200, lng:10, name:"Bad"}`. -/
def sampleBadMarker : Value :=
  .vobj [("lat", .vnum 200), ("lng", .vnum 10), ("name", .vstr "Bad")]

/-- What the route returns for the three-station batch containing
`sampleBadJsonStation`: the two surviving one-point polygons. -/
def sampleDecodeBatchResponse : GeoJSONResponse :=
  ⟨[⟨.vstr "A", .polygonGeom [(.vnum 0, .vnum 0)]⟩,
    ⟨.vstr "C", .polygonGeom [(.vnum 0, .vnum 0)]⟩]⟩

/-- What the route returns for an empty data array plus the bad marker:
one unvalidated point feature. -/
def sampleMarkerResponse : GeoJSONResponse :=
  ⟨[⟨.vstr "Bad", .pointGeom (.vnum 10) (.vnum 200)⟩]⟩

/-! ### Helper lemmas -/

theorem getField_eq_fieldD (v : Value) (k : String) (h : accessibleB v = true) :
    v.getField k = some (fieldD v k) := by
  cases v <;> first | rfl | exact Bool.noConfusion h

theorem jsStrictEqB_iff (a b : Value) (ha : Value.primNonNaN a = true)
    (hb : Value.primNonNaN b = true) :
    Value.jsStrictEqB a b = true ↔ a = b := by
  cases a <;> cases b <;> simp_all [Value.primNonNaN, Value.jsStrictEqB]

theorem jsSelfEqB_of_prim (a : Value) (ha : Value.primNonNaN a = true) :
    Value.jsSelfEqB a = true := by
  cases a <;> first | rfl | exact Bool.noConfusion ha

theorem pairSelfNeqB_of_prim (p : Value × Value) (h1 : Value.primNonNaN p.1 = true)
    (h2 : Value.primNonNaN p.2 = true) : pairSelfNeqB p = false := by
  simp [pairSelfNeqB, jsSelfEqB_of_prim p.1 h1, jsSelfEqB_of_prim p.2 h2]

theorem pairStrictNeqB_eq_false_iff (a b : Value × Value)
    (ha1 : Value.primNonNaN a.1 = true) (ha2 : Value.primNonNaN a.2 = true)
    (hb1 : Value.primNonNaN b.1 = true) (hb2 : Value.primNonNaN b.2 = true) :
    pairStrictNeqB a b = false ↔ a = b := by
  simp [pairStrictNeqB, jsStrictEqB_iff a.1 b.1 ha1 hb1, jsStrictEqB_iff a.2 b.2 ha2 hb2,
        Prod.ext_iff]

theorem foldl_push_eq (l : List Value) :
    ∀ acc : List GeoJSONFeature,
      l.foldl (fun a st => a ++ (processStation st).toList) acc = acc ++ flatFeatures l := by
  induction l with
  | nil => intro acc; simp [flatFeatures]
  | cons st rest ih =>
    intro acc
    simp [List.foldl_cons, flatFeatures, ih, List.append_assoc]

theorem processFlat_eq (l : List Value) : processFlat l = flatFeatures l := by
  simpa using foldl_push_eq l []

theorem processAreaInto_eq (acc : List GeoJSONFeature) (a : Value) :
    processAreaInto acc a = acc ++ areaFeatures a := by
  unfold processAreaInto areaFeatures
  cases hf : a.getField "area_list" with
  | none => simp
  | some al => cases al <;> simp [foldl_push_eq]

theorem foldl_area_eq (l : List Value) :
    ∀ acc : List GeoJSONFeature, l.foldl processAreaInto acc = acc ++ nestedFeatures l := by
  induction l with
  | nil => intro acc; simp [nestedFeatures]
  | cons a rest ih =>
    intro acc
    simp [List.foldl_cons, nestedFeatures, ih, processAreaInto_eq, List.append_assoc]

theorem processNested_eq (l : List Value) : processNested l = nestedFeatures l := by
  simpa [processNested] using foldl_area_eq l []

theorem flatFeatures_append (l₁ l₂ : List Value) :
    flatFeatures (l₁ ++ l₂) = flatFeatures l₁ ++ flatFeatures l₂ := by
  induction l₁ with
  | nil => simp [flatFeatures]
  | cons st rest ih => simp [flatFeatures, ih]

theorem markerFeature_some (m : Value) (x : GeoJSONFeature)
    (h : markerFeature m = some x) : x = pointOf m := by
  cases m <;> simp [markerFeature, Value.getField, pointOf, fieldD] at h <;> simp [h, pointOf, fieldD, Value.getField]

theorem mapM_markerFeature_eq (ms : List Value) :
    ∀ l, ms.mapM markerFeature = some l → l = ms.map pointOf := by
  induction ms with
  | nil => intro l h; exact (Option.some.inj h).symm
  | cons m rest ih =>
    intro l h
    rw [List.mapM_cons] at h
    cases hm : markerFeature m with
    | none => rw [hm] at h; simp at h
    | some x =>
      rw [hm] at h
      cases hr : rest.mapM markerFeature with
      | none => rw [hr] at h; simp at h
      | some tl =>
        rw [hr] at h
        simp at h
        subst h
        simp [markerFeature_some m x hm, ih tl hr]



theorem validateNestedFrom_cons (area : Value) (rest : List Value) (ai : Nat)
    (hacc : accessibleB area = true) :
    validateNestedFrom (area :: rest) ai =
      (match asVarr (fieldD area "area_list") with
       | some sts =>
         (match validateStationsFrom ai sts 0 with
          | .ok => validateNestedFrom rest (ai + 1)
          | r => r)
       | none => validateNestedFrom rest (ai + 1)) := by
  rw [validateNestedFrom, getField_eq_fieldD area _ hacc]
  cases fieldD area "area_list" <;> rfl

theorem nestedFirstIssue_cons (area : Value) (rest : List Value)
    (hacc : accessibleB area = true) :
    nestedFirstIssue (area :: rest) =
      (match asVarr (fieldD area "area_list") with
       | some sts =>
         (match flatFirstIssue sts with
          | some (j, f) => some (0, j, f)
          | none => (nestedFirstIssue rest).map (fun t => (t.1 + 1, t.2)))
       | none => (nestedFirstIssue rest).map (fun t => (t.1 + 1, t.2))) := by
  rw [nestedFirstIssue, getField_eq_fieldD area _ hacc]
  cases fieldD area "area_list" <;> rfl

theorem areaStationsOk_parts (area : Value) (h : areaStationsOk area = true) :
    accessibleB area = true ∧
      ∀ sts, asVarr (fieldD area "area_list") = some sts → sts.all accessibleB = true := by
  unfold areaStationsOk at h
  rw [Bool.and_eq_true] at h
  refine ⟨h.1, ?_⟩
  intro sts hsts
  have h2 := h.2
  rw [getField_eq_fieldD area _ h.1] at h2
  cases hal : fieldD area "area_list" <;> rw [hal] at h2 hsts <;>
    first
    | exact Option.noConfusion hsts
    | exact (Option.some.inj hsts) ▸ h2

theorem validateFlatFrom_spec (l : List Value) :
    ∀ i : Nat, l.all accessibleB = true →
      validateFlatFrom l i =
        (match flatFirstIssue l with
         | none => Check.ok
         | some (j, f) => Check.clientErr (missingFieldMsg (flatPath (i + j)) f)) := by
  induction l with
  | nil => intro i _; rfl
  | cons st rest ih =>
    intro i h
    rw [List.all_cons, Bool.and_eq_true] at h
    cases hn : (fieldD st "name").truthy with
    | false =>
      have hsi : stationIssue st = some "name" := by simp [stationIssue, hn]
      simp [validateFlatFrom, getField_eq_fieldD st _ h.1, hn, flatFirstIssue, hsi]
    | true =>
      cases hp : (fieldD st "polygon").truthy with
      | false =>
        have hsi : stationIssue st = some "polygon" := by simp [stationIssue, hn, hp]
        simp [validateFlatFrom, getField_eq_fieldD st _ h.1, hn, hp, flatFirstIssue, hsi]
      | true =>
        have hsi : stationIssue st = none := by simp [stationIssue, hn, hp]
        simp only [validateFlatFrom, getField_eq_fieldD st _ h.1, hn, hp,
                   Bool.not_true, if_false, flatFirstIssue, hsi]
        rw [ih (i + 1) h.2]
        cases hfi : flatFirstIssue rest with
        | none => simp [hfi]
        | some jf =>
          have harith : i + 1 + jf.1 = i + (jf.1 + 1) := by omega
          simp [hfi, harith]

theorem validateStationsFrom_spec (ai : Nat) (l : List Value) :
    ∀ si : Nat, l.all accessibleB = true →
      validateStationsFrom ai l si =
        (match flatFirstIssue l with
         | none => Check.ok
         | some (j, f) => Check.clientErr (missingFieldMsg (nestedPath ai (si + j)) f)) := by
  induction l with
  | nil => intro si _; rfl
  | cons st rest ih =>
    intro si h
    rw [List.all_cons, Bool.and_eq_true] at h
    cases hn : (fieldD st "name").truthy with
    | false =>
      have hsi : stationIssue st = some "name" := by simp [stationIssue, hn]
      simp [validateStationsFrom, getField_eq_fieldD st _ h.1, hn, flatFirstIssue, hsi]
    | true =>
      cases hp : (fieldD st "polygon").truthy with
      | false =>
        have hsi : stationIssue st = some "polygon" := by simp [stationIssue, hn, hp]
        simp [validateStationsFrom, getField_eq_fieldD st _ h.1, hn, hp, flatFirstIssue, hsi]
      | true =>
        have hsi : stationIssue st = none := by simp [stationIssue, hn, hp]
        simp only [validateStationsFrom, getField_eq_fieldD st _ h.1, hn, hp,
                   Bool.not_true, if_false, flatFirstIssue, hsi]
        rw [ih (si + 1) h.2]
        cases hfi : flatFirstIssue rest with
        | none => simp [hfi]
        | some jf =>
          have harith : si + 1 + jf.1 = si + (jf.1 + 1) := by omega
          simp [hfi, harith]

theorem validateNestedFrom_spec (l : List Value) :
    ∀ ai : Nat, l.all areaStationsOk = true →
      validateNestedFrom l ai =
        (match nestedFirstIssue l with
         | none => Check.ok
         | some t => Check.clientErr (missingFieldMsg (nestedPath (ai + t.1) t.2.1) t.2.2)) := by
  induction l with
  | nil => intro ai _; rfl
  | cons area rest ih =>
    intro ai h
    rw [List.all_cons, Bool.and_eq_true] at h
    obtain ⟨hacc, hsts⟩ := areaStationsOk_parts area h.1
    rw [validateNestedFrom_cons area rest ai hacc, nestedFirstIssue_cons area rest hacc]
    cases hal : asVarr (fieldD area "area_list") with
    | none =>
      simp only
      rw [ih (ai + 1) h.2]
      cases hni : nestedFirstIssue rest with
      | none => simp [hni]
      | some t =>
        have harith : ai + 1 + t.1 = ai + (t.1 + 1) := by omega
        simp [hni, harith]
    | some sts =>
      have hall := hsts sts hal
      simp only
      rw [validateStationsFrom_spec ai sts 0 hall]
      cases hfi : flatFirstIssue sts with
      | none =>
        simp only [hfi]
        rw [ih (ai + 1) h.2]
        cases hni : nestedFirstIssue rest with
        | none => simp [hni]
        | some t =>
          have harith : ai + 1 + t.1 = ai + (t.1 + 1) := by omega
          simp [hni, harith]
      | some jf => simp [hfi]

theorem flatFirstIssue_none (l : List Value) (h : flatFirstIssue l = none) :
    ∀ st ∈ l, stationIssue st = none := by
  induction l with
  | nil => intro st hst; cases hst
  | cons a rest ih =>
    intro st hst
    cases hsi : stationIssue a with
    | some f => simp [flatFirstIssue, hsi] at h
    | none =>
      cases hst with
      | head => exact hsi
      | tail _ hmem =>
        cases hfi : flatFirstIssue rest with
        | none => exact ih hfi st hmem
        | some jf => simp [flatFirstIssue, hsi, hfi] at h

theorem nestedFirstIssue_none (l : List Value) (hac : l.all areaStationsOk = true)
    (h : nestedFirstIssue l = none) :
    ∀ area ∈ l, ∀ sts, asVarr (fieldD area "area_list") = some sts →
      flatFirstIssue sts = none := by
  induction l with
  | nil => intro area ha; cases ha
  | cons a rest ih =>
    intro area ha sts hsts
    rw [List.all_cons, Bool.and_eq_true] at hac
    obtain ⟨hacc, _⟩ := areaStationsOk_parts a hac.1
    rw [nestedFirstIssue_cons a rest hacc] at h
    cases ha with
    | head =>
      rw [hsts] at h
      cases hfi : flatFirstIssue sts with
      | none => rfl
      | some jf => simp [hfi] at h
    | tail _ hmem =>
      cases hav : asVarr (fieldD a "area_list") with
      | none =>
        rw [hav] at h
        simp only [Option.map_eq_none'] at h
        exact ih hac.2 h area hmem sts hsts
      | some sts₀ =>
        rw [hav] at h
        cases hfi : flatFirstIssue sts₀ with
        | some jf => simp [hfi] at h
        | none =>
          simp only [hfi, Option.map_eq_none'] at h
          exact ih hac.2 h area hmem sts hsts

theorem mapM_eq_none_of_mem {α β : Type} (f : α → Option β) (l : List α) (x : α)
    (hx : x ∈ l) (hf : f x = none) : l.mapM f = none := by
  induction l with
  | nil => cases hx
  | cons a rest ih =>
    rw [List.mapM_cons]
    cases hx with
    | head => rw [hf]; rfl
    | tail _ hmem =>
      cases ha : f a with
      | none => rfl
      | some b => rw [ih hmem]; rfl

theorem mapM_cons_some_ne_nil {α β : Type} (f : α → Option β) (x : α) (xs : List α)
    (l : List β) (h : (x :: xs).mapM f = some l) : l ≠ [] := by
  rw [List.mapM_cons] at h
  cases hx : f x with
  | none => rw [hx] at h; exact Option.noConfusion h
  | some b =>
    rw [hx] at h
    cases hr : xs.mapM f with
    | none => rw [hr] at h; exact Option.noConfusion h
    | some tl =>
      rw [hr] at h
      have hbt : b :: tl = l := Option.some.inj h
      intro hnil
      rw [hnil] at hbt
      exact List.noConfusion hbt

theorem markerFeature_acc (m : Value) (h : accessibleB m = true) :
    markerFeature m = some (pointOf m) := by
  cases m <;> first | rfl | exact Bool.noConfusion h

theorem mapM_markerFeature_all (ms : List Value) (h : ms.all accessibleB = true) :
    ms.mapM markerFeature = some (ms.map pointOf) := by
  induction ms with
  | nil => rfl
  | cons m rest ih =>
    rw [List.all_cons, Bool.and_eq_true] at h
    rw [List.mapM_cons, markerFeature_acc m h.1, ih h.2]
    rfl

theorem processStation_geom (st : Value) (f : GeoJSONFeature)
    (h : processStation st = some f) :
    ∃ (q : Value × Value) (qs : List (Value × Value)),
      f.geom = .polygonGeom (closeRing (q :: qs)) := by
  unfold processStation at h
  cases hpf : st.getField "polygon" with
  | none => rw [hpf] at h; exact Option.noConfusion h
  | some polyv =>
    rw [hpf] at h
    simp only at h
    have hcore : ∀ (opd : Option Value),
        (match opd with
         | some (Value.varr pts) =>
           if pts.isEmpty then none
           else
             match pts.mapM resolvePoint with
             | none => none
             | some coords =>
               match st.getField "name" with
               | none => none
               | some nm => some ⟨nm, Geometry.polygonGeom (closeRing coords)⟩
         | _ => (none : Option GeoJSONFeature)) = some f →
        ∃ (q : Value × Value) (qs : List (Value × Value)),
          f.geom = .polygonGeom (closeRing (q :: qs)) := by
      intro opd hpd
      cases opd with
      | none => exact Option.noConfusion hpd
      | some pd => ?_
      cases pd <;> try exact Option.noConfusion hpd
      case varr pts =>
        cases pts with
        | nil => simp at hpd
        | cons p ps =>
          simp only [List.isEmpty_cons, if_false] at hpd
          cases hm : (p :: ps).mapM resolvePoint with
          | none => rw [hm] at hpd; exact Option.noConfusion hpd
          | some coords =>
            rw [hm] at hpd
            cases hn : st.getField "name" with
            | none => rw [hn] at hpd; exact Option.noConfusion hpd
            | some nm =>
              rw [hn] at hpd
              have hne := mapM_cons_some_ne_nil resolvePoint p ps coords hm
              obtain ⟨q, qs, rfl⟩ := List.exists_cons_of_ne_nil hne
              have hf : (⟨nm, Geometry.polygonGeom (closeRing (q :: qs))⟩ : GeoJSONFeature) = f :=
                Option.some.inj hpd
              exact ⟨q, qs, by rw [← hf]⟩
    cases polyv with
    | vstr s =>
      simp only [] at h
      exact hcore (jsonParse s) h
    | varr es =>
      simp only [] at h
      exact hcore (some (.varr es)) h
    | vnull => exact Option.noConfusion h
    | vundefined => exact Option.noConfusion h
    | vbool b => exact Option.noConfusion h
    | vnum q => exact Option.noConfusion h
    | vnan => exact Option.noConfusion h
    | vobj fs => exact Option.noConfusion h

theorem closeRing_one (p : Value × Value) :
    closeRing [p] = if pairSelfNeqB p then [p, p] else [p] := rfl

theorem closeRing_cons₂ (p q : Value × Value) (qs : List (Value × Value)) :
    closeRing (p :: q :: qs) =
      if pairStrictNeqB p (List.getLastD (q :: qs) p) then (p :: q :: qs) ++ [p]
      else p :: q :: qs := rfl

/-! ### The claims -/

/-- Claim C1: for the single-feature flat input
`[{name:"Square", polygon:[{lat:0,long:0},{lat:0,long:1},{lat:1,long:1},{lat:1,long:0}]}]`
the conversion succeeds and returns a FeatureCollection with exactly one
Polygon feature named `Square` whose single ring is
`[[0,0],[1,0],[1,1],[0,1],[0,0]]` (reordered to `[lng,lat]` and closed),
and no warning is produced (the success body is the bare
FeatureCollection, which carries no `warnings` key at all). -/
theorem geojson_c1_square_end_to_end :
    convert ⟨.varr [sampleSquare], .vbool false, []⟩ =
      .success ⟨[⟨.vstr "Square", .polygonGeom
        [(.vnum 0, .vnum 0), (.vnum 1, .vnum 0), (.vnum 1, .vnum 1),
         (.vnum 0, .vnum 1), (.vnum 0, .vnum 0)]⟩]⟩ ∧
    (encodeResponse ⟨[⟨.vstr "Square", .polygonGeom
        [(.vnum 0, .vnum 0), (.vnum 1, .vnum 0), (.vnum 1, .vnum 1),
         (.vnum 0, .vnum 1), (.vnum 0, .vnum 0)]⟩]⟩).hasKeyIn "warnings" = some false :=
  ⟨rfl, rfl⟩

/-- Claim C3 (counterexample): the claim says an empty top-level array
is treated as Flat (`Nested` iff non-empty with an `area_list` element),
but the route's `isSimpleArray` is false for `[]`, so the empty batch is
handled by the nested branch. -/
theorem geojson_c3_empty_array_counterexample :
    isSimpleArray ([] : List Value) = some false ∧ ¬ specNestedRule ([] : List Value) :=
  ⟨rfl, fun h => h.1 rfl⟩

/-- Claim C3 (amended): detection is decided once over the whole array;
the flat branch runs iff the array is non-empty and no element owns an
`area_list` key — equivalently the nested branch handles both an empty
array and any array with an `area_list` element.  An empty array still
yields a successful response with zero features (through the nested
branch), and a non-array top-level value fails the whole request with
the `Expected an array` error. -/
theorem geojson_c3_shape_detection_amended :
    (∀ (items : List Value) (has : Bool), someHasAreaList items = some has →
       (isSimpleArray items = some false ↔ (items = [] ∨ has = true))) ∧
    convert ⟨.varr [], .vbool false, []⟩ = .success ⟨[]⟩ ∧
    (∀ v : Value, v.isArray = false →
       ∀ (im : Value) (ms : List Value), convert ⟨v, im, ms⟩ = .clientError notArrayMsg) := by
  refine ⟨?_, rfl, ?_⟩
  · intro items has hh
    cases items with
    | nil => simp [isSimpleArray]
    | cons a rest => simp [isSimpleArray, hh]
  · intro v hv im ms
    cases v <;> first | rfl | exact Bool.noConfusion hv

/-- Claim C3 (witness): instantiating the amended detection rule on a
one-element nested batch and the error case on a string body. -/
theorem geojson_c3_shape_detection_amended_witness :
    isSimpleArray [Value.vobj [("area_list", Value.varr [])]] = some false ∧
    convert ⟨.vstr "oops", .vbool false, []⟩ = .clientError notArrayMsg :=
  ⟨(geojson_c3_shape_detection_amended.1 [Value.vobj [("area_list", Value.varr [])]] true
      rfl).mpr (Or.inr rfl),
   geojson_c3_shape_detection_amended.2.2 (.vstr "oops") rfl (.vbool false) []⟩

/-- Claim C5 (counterexample): the claim says a point with non-numeric
latitude `"abc"` and longitude `106.8` yields the fallback coordinate
`[106.8, 0]` plus an `invalid_latitude` warning; the route has no
coercion, validation or warning step at all — it emits the raw value
`"abc"` as the latitude slot, and the full response is just this one
feature. -/
theorem geojson_c5_no_fallback_counterexample :
    convert ⟨.varr [sampleAbcStation], .vbool false, []⟩ =
      .success ⟨[⟨.vstr "A", .polygonGeom [(.vnum 106.8, .vstr "abc")]⟩]⟩ ∧
    (Value.vstr "abc" ≠ Value.vnum 0) :=
  ⟨rfl, fun h => Value.noConfusion h⟩

/-- Claim C5 (amended): the route performs no numeric coercion and no
range validation: a matched field pair is passed through verbatim as
`[lng, lat]` and the mapper cannot raise for such a pair, so the feature
is still emitted — but with the raw `"abc"` in the latitude slot, no `0`
substitution, and no warning anywhere in the response. -/
theorem geojson_c5_passthrough_amended :
    convert ⟨.varr [sampleAbcStation], .vbool false, []⟩ =
      .success ⟨[⟨.vstr "A", .polygonGeom [(.vnum 106.8, .vstr "abc")]⟩]⟩ ∧
    (encodeResponse ⟨[⟨.vstr "A", .polygonGeom
        [(.vnum 106.8, .vstr "abc")]⟩]⟩).hasKeyIn "warnings" = some false ∧
    (∀ p : Value, accessibleB p = true → (fieldD p "lat").isUndef = false →
       (fieldD p "long").isUndef = false →
       resolvePoint p = some (fieldD p "long", fieldD p "lat")) := by
  refine ⟨rfl, rfl, ?_⟩
  intro p hp h1 h2
  cases p <;> first | exact Bool.noConfusion hp | simp [resolvePoint, h1, h2]

/-- Claim C5 (witness): the verbatim pass-through applied to the
concrete `{lat:"abc", long:106.8}` point. -/
theorem geojson_c5_passthrough_amended_witness :
    resolvePoint (Value.vobj [("lat", .vstr "abc"), ("long", .vnum 106.8)]) =
      some (.vnum 106.8, .vstr "abc") :=
  geojson_c5_passthrough_amended.2.2
    (Value.vobj [("lat", .vstr "abc"), ("long", .vnum 106.8)]) rfl rfl rfl

/-- Claim C6 (counterexample): the claim says the success response has
the wrapper shape `{ geojson, warnings? }` with one `invalid_json`
warning for the bad feature; the route's success body is the bare
FeatureCollection — it has no `geojson` key and no `warnings` key, and
no warning object exists anywhere in the code path. -/
theorem geojson_c6_response_shape_counterexample :
    convert ⟨.varr [sampleStation "A", sampleBadJsonStation, sampleStation "C"],
        .vbool false, []⟩ = .success sampleDecodeBatchResponse ∧
    (encodeResponse sampleDecodeBatchResponse).hasKeyIn "geojson" = some false ∧
    (encodeResponse sampleDecodeBatchResponse).hasKeyIn "warnings" = some false :=
  ⟨rfl, rfl, rfl⟩

/-- Claim C6 (amended): a textual polygon that fails to decode as JSON
is indeed non-fatal — in the 3-feature batch with `polygon: "not json"`
on feature `X` the request still succeeds and exactly the other two
Polygon features are emitted — but no warning is produced (the route
merely logs) and the success body is the bare FeatureCollection, not a
`{ geojson, warnings? }` wrapper. -/
theorem geojson_c6_nonfatal_decode_amended :
    jsonParse "not json" = none ∧
    processStation sampleBadJsonStation = none ∧
    convert ⟨.varr [sampleStation "A", sampleBadJsonStation, sampleStation "C"],
        .vbool false, []⟩ = .success sampleDecodeBatchResponse ∧
    sampleDecodeBatchResponse.features.length = 2 :=
  ⟨rfl, rfl, rfl, rfl⟩

/-- Claim C8 (counterexample): ring closure is not idempotent on every
coordinate sequence: on `[[NaN, 0]]` the `!==` comparison is true even
between a value and itself, so every application appends another copy
(one application gives 2 entries, two give 3). -/
theorem geojson_c8_idempotence_counterexample :
    closeRing (closeRing [(Value.vnan, Value.vnum 0)]) ≠
      closeRing [(Value.vnan, Value.vnum 0)] := fun h =>
  absurd (congrArg List.length h) (by decide)

/-- Claim C8 (amended): ring closure is idempotent on every coordinate
sequence whose first pair has primitive non-`NaN` components (in
particular on every sequence of genuine numeric pairs): the copy
appended by a first application is then strictly equal to the first
pair, so a second application changes nothing.  A first pair carrying
`NaN` defeats this, since `NaN !== NaN` holds on every comparison. -/
theorem geojson_c8_idempotence_amended :
    closeRing (closeRing ([] : List (Value × Value))) = closeRing [] ∧
    (∀ (p : Value × Value) (ps : List (Value × Value)),
       Value.primNonNaN p.1 = true → Value.primNonNaN p.2 = true →
       closeRing (closeRing (p :: ps)) = closeRing (p :: ps)) := by
  refine ⟨rfl, ?_⟩
  intro p ps h1 h2
  have hself : pairStrictNeqB p p = false := by
    simp [pairStrictNeqB, (jsStrictEqB_iff p.1 p.1 h1 h1).mpr rfl,
          (jsStrictEqB_iff p.2 p.2 h2 h2).mpr rfl]
  cases ps with
  | nil =>
    have h0 : closeRing [p] = [p] := by
      rw [closeRing_one, pairSelfNeqB_of_prim p h1 h2]
      simp
    rw [h0, h0]
  | cons q qs =>
    cases hb : pairStrictNeqB p (List.getLastD (q :: qs) p) with
    | false =>
      have h0 : closeRing (p :: q :: qs) = p :: q :: qs := by
        rw [closeRing_cons₂, hb]
        simp
      rw [h0, h0]
    | true =>
      have h0 : closeRing (p :: q :: qs) = p :: q :: (qs ++ [p]) := by
        rw [closeRing_cons₂, hb]
        simp
      rw [h0]
      have hlast : List.getLastD (q :: (qs ++ [p])) p = p := by
        rw [List.getLastD_cons, List.getLastD_concat]
      rw [closeRing_cons₂, hlast, hself]
      simp

/-- Claim C8 (witness): idempotence applied to a concrete numeric
two-pair sequence. -/
theorem geojson_c8_idempotence_amended_witness :
    closeRing (closeRing [((Value.vnum 0 : Value), Value.vnum 1),
        ((Value.vnum 2 : Value), Value.vnum 3)]) =
      closeRing [((Value.vnum 0 : Value), Value.vnum 1),
        ((Value.vnum 2 : Value), Value.vnum 3)] :=
  geojson_c8_idempotence_amended.2 (Value.vnum 0, Value.vnum 1)
    [(Value.vnum 2, Value.vnum 3)] rfl rfl

/-- Claim C9 (counterexample): the claim says the out-of-range marker
`{lat:200, lng:10, name:"Bad"}` produces the Point `[10,200]` *plus* a
warning with `issue = invalid_latitude` and `featureIndex = -1`; the
route emits the Point but performs no marker validation and produces no
warning of any kind — the whole success body is just the one feature. -/
theorem geojson_c9_no_warning_counterexample :
    convert ⟨.varr [], .vbool true, [sampleBadMarker]⟩ = .success sampleMarkerResponse ∧
    (encodeResponse sampleMarkerResponse).hasKeyIn "warnings" = some false :=
  ⟨rfl, rfl⟩

/-- Claim C9 (amended): when `includeMarkers` is truthy and the marker
list non-empty, every supplied marker yields exactly one Point feature
with coordinates `[lng, lat]` taken verbatim and the marker's name —
markers are never dropped and never validated, and no warning is
attached; the `{lat:200, lng:10, name:"Bad"}` marker therefore yields
exactly the Point `[10,200]` and nothing else. -/
theorem geojson_c9_markers_amended :
    (∀ (d im : Value) (ms : List Value) (feats : List GeoJSONFeature),
       im.truthy = true → 0 < ms.length → ms.all accessibleB = true →
       addMarkers feats ⟨d, im, ms⟩ = .success ⟨feats ++ ms.map pointOf⟩) ∧
    convert ⟨.varr [], .vbool true, [sampleBadMarker]⟩ = .success sampleMarkerResponse := by
  refine ⟨?_, rfl⟩
  intro d im ms feats him hlen hacc
  unfold addMarkers
  rw [mapM_markerFeature_all ms hacc]
  simp [him, hlen]

/-- Claim C9 (witness): the marker stage applied to the concrete
out-of-range marker. -/
theorem geojson_c9_markers_amended_witness :
    addMarkers [] ⟨.varr [], .vbool true, [sampleBadMarker]⟩ =
      .success ⟨[] ++ [sampleBadMarker].map pointOf⟩ :=
  geojson_c9_markers_amended.1 (.varr []) (.vbool true) [sampleBadMarker] []
    rfl (by decide) rfl

/-- Claim C2: structural validation is an all-or-nothing gate.  In a
flat-detected batch, any station with a missing or falsy `name` or
`polygon` makes the whole request fail with a 400 whose message names
the first offending field and its flat index, and no features are
returned (the result is the bare error, never a success); likewise in a
nested-detected batch, with the `area[i].area_list[j]` path, groups
without an array `area_list` being skipped.  In particular the
three-station batch whose second station lacks `name` fails identifying
index 1. -/
theorem geojson_c2_structural_gate :
    (∀ (items : List Value) (im : Value) (ms : List Value),
       items.all accessibleB = true →
       isSimpleArray items = some true →
       (∃ st ∈ items, stationIssue st ≠ none) →
       ∃ j f, flatFirstIssue items = some (j, f) ∧
         convert ⟨.varr items, im, ms⟩ = .clientError (missingFieldMsg (flatPath j) f)) ∧
    (∀ (items : List Value) (im : Value) (ms : List Value),
       items.all areaStationsOk = true →
       isSimpleArray items = some false →
       (∃ area ∈ items, ∃ sts, asVarr (fieldD area "area_list") = some sts ∧
          ∃ st ∈ sts, stationIssue st ≠ none) →
       ∃ a j f, nestedFirstIssue items = some (a, j, f) ∧
         convert ⟨.varr items, im, ms⟩ = .clientError (missingFieldMsg (nestedPath a j) f)) ∧
    convert ⟨.varr [sampleStation "A", sampleNoName, sampleStation "C"], .vbool false, []⟩ =
      .clientError (missingFieldMsg (flatPath 1) "name") := by
  refine ⟨?_, ?_, rfl⟩
  · rintro items im ms hall hsimple ⟨st, hmem, hbad⟩
    cases hfi : flatFirstIssue items with
    | none => exact absurd (flatFirstIssue_none items hfi st hmem) hbad
    | some jf =>
      obtain ⟨j, f⟩ := jf
      refine ⟨j, f, rfl, ?_⟩
      have hv := validateFlatFrom_spec items 0 hall
      rw [hfi] at hv
      simp only at hv
      simp only [convert, hsimple, hv]
      simp
  · rintro items im ms hall hnested ⟨area, hmem, sts, hsts, st, hstm, hbad⟩
    cases hfi : nestedFirstIssue items with
    | none =>
      have hnone := nestedFirstIssue_none items hall hfi area hmem sts hsts
      exact absurd (flatFirstIssue_none sts hnone st hstm) hbad
    | some t =>
      obtain ⟨a, j, f⟩ := t
      refine ⟨a, j, f, rfl, ?_⟩
      have hv := validateNestedFrom_spec items 0 hall
      rw [hfi] at hv
      simp only at hv
      simp only [convert, hnested, hv]
      simp

/-- Claim C2 (witness): the gate applied to a concrete flat batch whose
second station lacks `name`, and to a concrete nested batch whose bad
station sits at `area[1].area_list[1]`. -/
theorem geojson_c2_structural_gate_witness :
    (∃ j f, flatFirstIssue [sampleStation "A", sampleNoName, sampleStation "C"] = some (j, f) ∧
       convert ⟨.varr [sampleStation "A", sampleNoName, sampleStation "C"], .vbool false, []⟩ =
         .clientError (missingFieldMsg (flatPath j) f)) ∧
    (∃ a j f, nestedFirstIssue
        [Value.vobj [("area_list", .varr [sampleStation "A"])],
         Value.vobj [("area_list", .varr [sampleStation "B", sampleNoName])]] = some (a, j, f) ∧
       convert ⟨.varr [Value.vobj [("area_list", .varr [sampleStation "A"])],
           Value.vobj [("area_list", .varr [sampleStation "B", sampleNoName])]],
           .vbool false, []⟩ = .clientError (missingFieldMsg (nestedPath a j) f)) :=
  ⟨geojson_c2_structural_gate.1 [sampleStation "A", sampleNoName, sampleStation "C"]
      (.vbool false) [] rfl rfl
      ⟨sampleNoName, List.Mem.tail _ (List.Mem.head _), by
        intro h
        rw [show stationIssue sampleNoName = some "name" from rfl] at h
        exact Option.noConfusion h⟩,
   geojson_c2_structural_gate.2.1
      [Value.vobj [("area_list", .varr [sampleStation "A"])],
       Value.vobj [("area_list", .varr [sampleStation "B", sampleNoName])]]
      (.vbool false) [] rfl rfl
      ⟨Value.vobj [("area_list", .varr [sampleStation "B", sampleNoName])],
       List.Mem.tail _ (List.Mem.head _),
       [sampleStation "B", sampleNoName], rfl,
       sampleNoName, List.Mem.tail _ (List.Mem.head _), by
        intro h
        rw [show stationIssue sampleNoName = some "name" from rfl] at h
        exact Option.noConfusion h⟩⟩

/-- Claim C4: coordinate extraction tries the pairs `(lat,long)`,
`(lat,lng)`, `(latitude,longitude)`, `(lat,lon)` in that fixed order,
the first pair with both fields present winning, and yields `[lng,lat]`
(the route's cascade coincides with the ordered rule table
`firstPairMatch`); the point `{lat:-6.24, long:106.86, lng:999}`
resolves via `(lat,long)`, ignoring `lng`; a point with no matching pair
aborts only its own feature: that station yields no feature, while in
the flat loop every other station's output is unaffected. -/
theorem geojson_c4_pair_precedence :
    resolvePoint samplePrecPoint = some (.vnum 106.86, .vnum (-6.24)) ∧
    (∀ p : Value, accessibleB p = true → resolvePoint p = firstPairMatch p pairNames) ∧
    (∀ (nm : Value) (pts : List Value) (pt : Value), pt ∈ pts → resolvePoint pt = none →
       processStation (.vobj [("name", nm), ("polygon", .varr pts)]) = none) ∧
    (∀ (pre post : List Value) (st : Value),
       processFlat (pre ++ st :: post) =
         processFlat pre ++ (processStation st).toList ++ processFlat post) := by
  refine ⟨rfl, ?_, ?_, ?_⟩
  · intro p hp
    cases p <;> first | exact Bool.noConfusion hp | rfl
  · intro nm pts pt hmem hnone
    cases pts with
    | nil => cases hmem
    | cons q qs =>
      have hm := mapM_eq_none_of_mem resolvePoint (q :: qs) pt hmem hnone
      have hgf : (Value.vobj [("name", nm), ("polygon", Value.varr (q :: qs))]).getField
          "polygon" = some (.varr (q :: qs)) := rfl
      unfold processStation
      rw [hgf]
      simp only [List.isEmpty_cons, Bool.false_eq_true, if_false]
      rw [hm]
  · intro pre post st
    rw [processFlat_eq, processFlat_eq, processFlat_eq, flatFeatures_append]
    simp [flatFeatures, List.append_assoc]

/-- Claim C4 (witness): the cascade equality at the concrete precedence
point, the abort of one feature whose point matches no pair, and
unaffected processing of its two well-formed neighbours. -/
theorem geojson_c4_pair_precedence_witness :
    resolvePoint samplePrecPoint = firstPairMatch samplePrecPoint pairNames ∧
    processStation (.vobj [("name", .vstr "N"),
      ("polygon", .varr [Value.vobj [("x", .vnum 1)]])]) = none ∧
    processFlat [sampleStation "A", .vobj [("name", .vstr "N"),
        ("polygon", .varr [Value.vobj [("x", .vnum 1)]])], sampleStation "C"] =
      processFlat [sampleStation "A"] ++
        (processStation (.vobj [("name", .vstr "N"),
          ("polygon", .varr [Value.vobj [("x", .vnum 1)]])])).toList ++
        processFlat [sampleStation "C"] :=
  ⟨geojson_c4_pair_precedence.2.1 samplePrecPoint rfl,
   geojson_c4_pair_precedence.2.2.1 (.vstr "N") [Value.vobj [("x", .vnum 1)]]
     (Value.vobj [("x", .vnum 1)]) (List.Mem.head _) rfl,
   geojson_c4_pair_precedence.2.2.2 [sampleStation "A"] [sampleStation "C"]
     (.vobj [("name", .vstr "N"), ("polygon", .varr [Value.vobj [("x", .vnum 1)]])])⟩

/-- Claim C7: for a non-empty coordinate sequence whose first and last
pairs have valid (non-`NaN`, primitive) components, ring closure leaves
the sequence unchanged when the first and last pairs are equal and
appends a copy of the first pair exactly when they differ in some
component; the closed result is never empty, starts with the first pair
and, under the same validity, ends with it as well; and every geometry a
station emits is a closed ring of a non-empty coordinate sequence. -/
theorem geojson_c7_ring_closure :
    (∀ (p : Value × Value) (ps : List (Value × Value)),
       Value.primNonNaN p.1 = true → Value.primNonNaN p.2 = true →
       Value.primNonNaN (List.getLastD ps p).1 = true →
       Value.primNonNaN (List.getLastD ps p).2 = true →
       (p = List.getLastD ps p → closeRing (p :: ps) = p :: ps) ∧
       (p ≠ List.getLastD ps p → closeRing (p :: ps) = (p :: ps) ++ [p])) ∧
    (∀ (p : Value × Value) (ps : List (Value × Value)), closeRing (p :: ps) ≠ []) ∧
    (∀ (p : Value × Value) (ps : List (Value × Value)),
       Value.primNonNaN p.1 = true → Value.primNonNaN p.2 = true →
       Value.primNonNaN (List.getLastD ps p).1 = true →
       Value.primNonNaN (List.getLastD ps p).2 = true →
       ∃ tail, closeRing (p :: ps) = p :: tail ∧ List.getLastD tail p = p) ∧
    (∀ (st : Value) (f : GeoJSONFeature), processStation st = some f →
       ∃ (q : Value × Value) (qs : List (Value × Value)),
         f.geom = .polygonGeom (closeRing (q :: qs))) := by
  have key : ∀ (p : Value × Value) (ps : List (Value × Value)),
      Value.primNonNaN p.1 = true → Value.primNonNaN p.2 = true →
      Value.primNonNaN (List.getLastD ps p).1 = true →
      Value.primNonNaN (List.getLastD ps p).2 = true →
      (p = List.getLastD ps p → closeRing (p :: ps) = p :: ps) ∧
      (p ≠ List.getLastD ps p → closeRing (p :: ps) = (p :: ps) ++ [p]) := by
    intro p ps h1 h2 h3 h4
    cases ps with
    | nil =>
      constructor
      · intro _
        rw [closeRing_one, pairSelfNeqB_of_prim p h1 h2]
        simp
      · intro he
        exact absurd rfl he
    | cons q qs =>
      constructor
      · intro he
        have hb := (pairStrictNeqB_eq_false_iff p (List.getLastD (q :: qs) p)
          h1 h2 h3 h4).mpr he
        rw [closeRing_cons₂, hb]
        simp
      · intro he
        have hb : pairStrictNeqB p (List.getLastD (q :: qs) p) = true := by
          cases hbb : pairStrictNeqB p (List.getLastD (q :: qs) p) with
          | true => rfl
          | false =>
            exact absurd ((pairStrictNeqB_eq_false_iff p (List.getLastD (q :: qs) p)
              h1 h2 h3 h4).mp hbb) he
        rw [closeRing_cons₂, hb]
        simp
  refine ⟨key, ?_, ?_, processStation_geom⟩
  · intro p ps
    cases ps with
    | nil =>
      rw [closeRing_one]
      cases pairSelfNeqB p <;> simp
    | cons q qs =>
      rw [closeRing_cons₂]
      cases pairStrictNeqB p (List.getLastD (q :: qs) p) <;> simp
  · intro p ps h1 h2 h3 h4
    by_cases he : p = List.getLastD ps p
    · rw [(key p ps h1 h2 h3 h4).1 he]
      exact ⟨ps, rfl, he.symm⟩
    · rw [(key p ps h1 h2 h3 h4).2 he]
      exact ⟨ps ++ [p], List.cons_append p ps [p], List.getLastD_concat p p ps⟩

/-- Claim C7 (witness): closure of a concrete open two-pair numeric
ring appends a copy of the first pair, the result is non-empty and it
starts and ends with the first pair; and the square feature's emitted
geometry is such a closed ring. -/
theorem geojson_c7_ring_closure_witness :
    closeRing [((Value.vnum 0 : Value), Value.vnum 0), ((Value.vnum 1 : Value), Value.vnum 2)] =
      ([((Value.vnum 0 : Value), Value.vnum 0), ((Value.vnum 1 : Value), Value.vnum 2)] ++
        [((Value.vnum 0 : Value), Value.vnum 0)]) ∧
    closeRing [((Value.vnum 0 : Value), Value.vnum 0),
        ((Value.vnum 1 : Value), Value.vnum 2)] ≠ [] ∧
    (∃ tail, closeRing [((Value.vnum 0 : Value), Value.vnum 0),
        ((Value.vnum 1 : Value), Value.vnum 2)] =
          ((Value.vnum 0 : Value), Value.vnum 0) :: tail ∧
      List.getLastD tail ((Value.vnum 0 : Value), Value.vnum 0) =
        ((Value.vnum 0 : Value), Value.vnum 0)) ∧
    (∃ (q : Value × Value) (qs : List (Value × Value)),
      (⟨Value.vstr "Square", Geometry.polygonGeom (closeRing
          [((Value.vnum 0 : Value), Value.vnum 0), ((Value.vnum 1 : Value), Value.vnum 0),
           ((Value.vnum 1 : Value), Value.vnum 1), ((Value.vnum 0 : Value), Value.vnum 1)])⟩ :
        GeoJSONFeature).geom = .polygonGeom (closeRing (q :: qs))) := by
  have hne : ((Value.vnum 0 : Value), Value.vnum 0) ≠
      List.getLastD [((Value.vnum 1 : Value), Value.vnum 2)]
        ((Value.vnum 0 : Value), Value.vnum 0) := by
    intro h
    have h1 : (Value.vnum 0 : Value) = Value.vnum 1 := congrArg Prod.fst h
    have h2 := Value.vnum.inj h1
    norm_num at h2
  refine ⟨?_, ?_, ?_, ?_⟩
  · exact (geojson_c7_ring_closure.1 ((Value.vnum 0 : Value), Value.vnum 0)
      [((Value.vnum 1 : Value), Value.vnum 2)] rfl rfl rfl rfl).2 hne
  · exact geojson_c7_ring_closure.2.1 ((Value.vnum 0 : Value), Value.vnum 0)
      [((Value.vnum 1 : Value), Value.vnum 2)]
  · exact geojson_c7_ring_closure.2.2.1 ((Value.vnum 0 : Value), Value.vnum 0)
      [((Value.vnum 1 : Value), Value.vnum 2)] rfl rfl rfl rfl
  · exact geojson_c7_ring_closure.2.2.2 sampleSquare _ rfl

/-- Claim C10: on every successful request the features array is
ordered deterministically: first the polygon features, in input order
(top-level order for a flat batch; group order then station order within
each `area_list` for a nested batch), then one point feature per
supplied marker in the order of the markers array (present exactly when
marker inclusion is active and the list non-empty). -/
theorem geojson_c10_feature_order :
    ∀ (d im : Value) (ms : List Value) (gj : GeoJSONResponse),
      convert ⟨d, im, ms⟩ = .success gj →
      ∃ (items : List Value) (simple : Bool),
        d = .varr items ∧ isSimpleArray items = some simple ∧
        gj.features =
          (if simple then flatFeatures items else nestedFeatures items) ++
            (if im.truthy && decide (0 < ms.length) then ms.map pointOf else []) := by
  intro d im ms gj h
  cases d with
  | vnull => exact ConvertResult.noConfusion h
  | vundefined => exact ConvertResult.noConfusion h
  | vbool b => exact ConvertResult.noConfusion h
  | vnum q => exact ConvertResult.noConfusion h
  | vnan => exact ConvertResult.noConfusion h
  | vstr s => exact ConvertResult.noConfusion h
  | vobj fs => exact ConvertResult.noConfusion h
  | varr items =>
    refine ⟨items, ?_⟩
    unfold convert at h
    simp only at h
    cases hs : isSimpleArray items with
    | none => rw [hs] at h; exact ConvertResult.noConfusion h
    | some simple =>
      rw [hs] at h
      refine ⟨simple, rfl, rfl, ?_⟩
      cases simple with
      | true =>
        cases hv : validateFlatFrom items 0 with
        | thrown => rw [hv] at h; exact ConvertResult.noConfusion h
        | clientErr msg => rw [hv] at h; exact ConvertResult.noConfusion h
        | ok =>
          rw [hv] at h
          simp only [addMarkers] at h
          cases hc : (Value.truthy im && decide (0 < ms.length)) with
          | false =>
            rw [hc] at h
            simp only [Bool.false_eq_true, if_false] at h
            have hgj := ConvertResult.success.inj h
            simp [← hgj, processFlat_eq]
          | true =>
            rw [hc] at h
            simp only [if_true] at h
            cases hm : ms.mapM markerFeature with
            | none => rw [hm] at h; exact ConvertResult.noConfusion h
            | some mfs =>
              rw [hm] at h
              have hgj := ConvertResult.success.inj h
              simp [← hgj, processFlat_eq, mapM_markerFeature_eq ms mfs hm]
      | false =>
        cases hv : validateNestedFrom items 0 with
        | thrown => rw [hv] at h; exact ConvertResult.noConfusion h
        | clientErr msg => rw [hv] at h; exact ConvertResult.noConfusion h
        | ok =>
          rw [hv] at h
          simp only [addMarkers] at h
          cases hc : (Value.truthy im && decide (0 < ms.length)) with
          | false =>
            rw [hc] at h
            simp only [Bool.false_eq_true, if_false] at h
            have hgj := ConvertResult.success.inj h
            simp [← hgj, processNested_eq]
          | true =>
            rw [hc] at h
            simp only [if_true] at h
            cases hm : ms.mapM markerFeature with
            | none => rw [hm] at h; exact ConvertResult.noConfusion h
            | some mfs =>
              rw [hm] at h
              have hgj := ConvertResult.success.inj h
              simp [← hgj, processNested_eq, mapM_markerFeature_eq ms mfs hm]

/-- Claim C10 (witness): the ordering decomposition on a concrete
successful request: one flat station plus one marker. -/
theorem geojson_c10_feature_order_witness :
    ∃ (items : List Value) (simple : Bool),
      (Value.varr [sampleStation "A"]) = .varr items ∧
      isSimpleArray items = some simple ∧
      (GeoJSONResponse.mk [⟨.vstr "A", .polygonGeom [(.vnum 0, .vnum 0)]⟩,
          pointOf sampleBadMarker]).features =
        (if simple then flatFeatures items else nestedFeatures items) ++
          (if (Value.vbool true).truthy && decide (0 < [sampleBadMarker].length) then
            [sampleBadMarker].map pointOf else []) :=
  geojson_c10_feature_order (.varr [sampleStation "A"]) (.vbool true) [sampleBadMarker]
    ⟨[⟨.vstr "A", .polygonGeom [(.vnum 0, .vnum 0)]⟩, pointOf sampleBadMarker]⟩ rfl
